import Mathlib

/-!
Verification development for `clean_images.py`: a watcher that strips EXIF
metadata from image files.  The Python source is shallowly embedded below:
Python dict values become the inductive `ExVal`, Python dicts become
association lists that keep insertion order and overwrite in place
(`dinsert` / `dget`), and the three core functions `get_metadata`,
`display_metadata` and `clean_image_metadata` are translated line by line.
External library behaviour (PIL) is modelled at its interface: an opened
image exposes `format` / `mode` / `size`, a primary EXIF mapping whose lazy
iteration may raise part way through, and the deprecated legacy `_getexif`
mapping; `save` called without a metadata argument writes an image whose
EXIF mapping is empty; `bytes.decode` with the ignore error handler is the
total UTF-8 decoder `decodeUtf8Ignore`.
-/

/-- Python dict keys occurring in the program: tag names are strings, but an
unknown raw tag id falls through `TAGS.get(tag_id, tag_id)` as an integer. -/
inductive PyKey where
  | str (s : String)
  | int (n : Nat)
deriving DecidableEq

/-- Python values occurring in the program: integers, strings, byte strings,
tuples or lists, and (nested) dicts. -/
inductive ExVal where
  | int (n : Int)
  | str (s : String)
  | bytes (bs : List Nat)
  | tup (l : List ExVal)
  | dict (l : List (PyKey × ExVal))

/-- Python dict assignment `d[k] = v`: replace in place if the key exists
(keeping its position, as CPython dicts do), else append. -/
def dinsert : List (PyKey × ExVal) → PyKey → ExVal → List (PyKey × ExVal)
  | [], k, v => [(k, v)]
  | p :: ps, k, v => if p.1 = k then (k, v) :: ps else p :: dinsert ps k v

/-- Python dict lookup `d.get(k)` / `d[k]`. -/
def dget : List (PyKey × ExVal) → PyKey → Option ExVal
  | [], _ => none
  | p :: ps, k => if p.1 = k then some p.2 else dget ps k

/-- Lookup in an integer-keyed mapping (raw EXIF tables). -/
def lookupNat : List (Nat × ExVal) → Nat → Option ExVal
  | [], _ => none
  | p :: ps, k => if p.1 = k then some p.2 else lookupNat ps k

/-- The fragment of PIL's `ExifTags.TAGS` table used by this development
(faithful to PIL on the listed ids; all other ids are unknown and fall
through as raw integers, exactly as `TAGS.get(tag_id, tag_id)` does). -/
def TAGS : Nat → Option String
  | 269 => some "DocumentName"
  | 271 => some "Make"
  | 272 => some "Model"
  | 305 => some "Software"
  | 306 => some "DateTime"
  | 315 => some "Artist"
  | 33432 => some "Copyright"
  | 34853 => some "GPSInfo"
  | 36867 => some "DateTimeOriginal"
  | 36868 => some "DateTimeDigitized"
  | 37500 => some "MakerNote"
  | 37510 => some "UserComment"
  | 42016 => some "ImageUniqueID"
  | 42032 => some "CameraOwnerName"
  | 42033 => some "BodySerialNumber"
  | 42037 => some "LensSerialNumber"
  | 50735 => some "CameraSerialNumber"
  | _ => none

/-- The fragment of PIL's `ExifTags.GPSTAGS` table used here. -/
def GPSTAGS : Nat → Option String
  | 0 => some "GPSVersionID"
  | 1 => some "GPSLatitudeRef"
  | 2 => some "GPSLatitude"
  | 3 => some "GPSLongitudeRef"
  | 4 => some "GPSLongitude"
  | 5 => some "GPSAltitudeRef"
  | 6 => some "GPSAltitude"
  | _ => none

/-- `str.lower()` (the tag names involved are ASCII). -/
def strLower (s : String) : String := String.mk (s.data.map Char.toLower)

/-- Does the second list start with the first (character lists)? -/
def startsWithChars : List Char → List Char → Bool
  | [], _ => true
  | _ :: _, [] => false
  | n :: ns, h :: hs => (n = h) && startsWithChars ns hs

/-- Scan for the needle (first argument) anywhere inside the haystack. -/
def subAux (needle : List Char) : List Char → Bool
  | [] => startsWithChars needle []
  | h :: t => startsWithChars needle (h :: t) || subAux needle t

/-- Python's substring test `needle in hay`. -/
def strContains (hay needle : String) : Bool := subAux needle.data hay.data

/-- The `sensitive_fields` set of `display_metadata`. -/
def sensitive_fields : List String :=
  ["SerialNumber", "BodySerialNumber", "LensSerialNumber",
   "CameraSerialNumber", "InternalSerialNumber", "Serial Number",
   "Make", "Model", "Software", "Artist", "Copyright",
   "OwnerName", "GPSInfo", "GPSLatitude", "GPSLongitude",
   "GPSAltitude", "DateTime", "DateTimeOriginal", "DateTimeDigitized",
   "MakerNote", "UserComment", "ImageUniqueID", "DocumentName"]

/-- The sensitivity check of `display_metadata` (line 164 of the source):
`any(sensitive.lower() in key.lower() for sensitive in sensitive_fields)`. -/
def is_sensitive (key : String) : Bool :=
  sensitive_fields.any (fun s => strContains (strLower key) (strLower s))

/-- The hardware-identifier check of `display_metadata` (line 179 of the
source): `'serial' in key.lower()`, computed independently of
`is_sensitive`. -/
def is_hardware_identifier (key : String) : Bool :=
  strContains (strLower key) "serial"

/-- The supported extension set `SUPPORTED_FORMATS`. -/
def SUPPORTED_FORMATS : List String :=
  [".jpg", ".jpeg", ".png", ".tiff", ".tif", ".bmp", ".webp"]

/-- Index of the last dot in a character list, if any. -/
def lastIndexOfDot : List Char → Option Nat
  | [] => none
  | c :: rest =>
    match lastIndexOfDot rest with
    | some j => some (j + 1)
    | none => if c = '.' then some 0 else none

/-- `pathlib.Path(p).suffix`: the extension of the final path component, or
the empty string when the name has no dot, starts with its only dot, or
ends in a dot. -/
def pathSuffix (p : String) : String :=
  let name := p.data.foldl (fun acc c => if c = '/' then [] else acc ++ [c]) []
  match lastIndexOfDot name with
  | none => ""
  | some i => if 0 < i ∧ i + 1 < name.length then String.mk (name.drop i) else ""

/-- `is_image_file`: the lower-cased extension is a supported format. -/
def is_image_file (p : String) : Bool :=
  SUPPORTED_FORMATS.contains (strLower (pathSuffix p))

/-- Is a byte a valid UTF-8 continuation byte? -/
def contOk (b : Nat) : Bool := 0x80 ≤ b && b ≤ 0xBF

/-- Fuelled core of the UTF-8 ignore-mode decoder.  Every step consumes at
least one byte, so fuel equal to the byte count never runs out; the fuel
makes the recursion structural (hence kernel-reducible). -/
def decodeAux : Nat → List Nat → List Char
  | 0, _ => []
  | _, [] => []
  | fuel + 1, b :: rest =>
    if b ≤ 0x7F then Char.ofNat b :: decodeAux fuel rest
    else if 0xC2 ≤ b && b ≤ 0xDF then
      match rest with
      | [] => []
      | b2 :: r2 =>
        if contOk b2 then
          Char.ofNat ((b - 0xC0) * 0x40 + (b2 - 0x80)) :: decodeAux fuel r2
        else decodeAux fuel (b2 :: r2)
    else if 0xE0 ≤ b && b ≤ 0xEF then
      match rest with
      | [] => []
      | b2 :: r2 =>
        if (if b = 0xE0 then 0xA0 ≤ b2 && b2 ≤ 0xBF
            else if b = 0xED then 0x80 ≤ b2 && b2 ≤ 0x9F
            else contOk b2) then
          match r2 with
          | [] => []
          | b3 :: r3 =>
            if contOk b3 then
              Char.ofNat ((b - 0xE0) * 0x1000 + (b2 - 0x80) * 0x40 + (b3 - 0x80))
                :: decodeAux fuel r3
            else decodeAux fuel (b3 :: r3)
        else decodeAux fuel (b2 :: r2)
    else if 0xF0 ≤ b && b ≤ 0xF4 then
      match rest with
      | [] => []
      | b2 :: r2 =>
        if (if b = 0xF0 then 0x90 ≤ b2 && b2 ≤ 0xBF
            else if b = 0xF4 then 0x80 ≤ b2 && b2 ≤ 0x8F
            else contOk b2) then
          match r2 with
          | [] => []
          | b3 :: r3 =>
            if contOk b3 then
              match r3 with
              | [] => []
              | b4 :: r4 =>
                if contOk b4 then
                  Char.ofNat ((b - 0xF0) * 0x40000 + (b2 - 0x80) * 0x1000 +
                      (b3 - 0x80) * 0x40 + (b4 - 0x80)) :: decodeAux fuel r4
                else decodeAux fuel (b4 :: r4)
            else decodeAux fuel (b3 :: r3)
        else decodeAux fuel (b2 :: r2)
    else decodeAux fuel rest

/-- `bytes.decode('utf-8', errors='ignore')`: total UTF-8 decoding that
drops malformed portions (the lead byte together with any valid
continuation bytes already consumed) and resumes at the next byte. -/
def decodeUtf8Ignore (bs : List Nat) : List Char := decodeAux bs.length bs

/-- One hexadecimal digit (for byte reprs). -/
def hexDigit (n : Nat) : Char :=
  if n < 10 then Char.ofNat (48 + n) else Char.ofNat (87 + n)

/-- Python `str(b'...')` (repr of a byte string). -/
def pyBytesRepr (bs : List Nat) : String :=
  "b\x27" ++ String.mk (bs.foldr
    (fun b acc =>
      if 32 ≤ b ∧ b ≤ 126 ∧ b ≠ 39 ∧ b ≠ 92 then Char.ofNat b :: acc
      else '\\' :: 'x' :: hexDigit (b / 16) :: hexDigit (b % 16) :: acc) []) ++ "\x27"

/-- Python `str(key)` for a dict key. -/
def pyKeyStr : PyKey → String
  | .str s => s
  | .int n => toString n

/-- Python `repr(key)` for a dict key. -/
def pyKeyRepr : PyKey → String
  | .str s => "\x27" ++ s ++ "\x27"
  | .int n => toString n

/-- Fuelled Python `repr(value)` (containers embed the reprs of their
elements).  Nesting depth is bounded by the size of the value, so fuel
`sizeOf v` never runs out; the fuel makes the nested recursion structural
(hence kernel-reducible). -/
def pyReprF : Nat → ExVal → String
  | _, ExVal.int n => toString n
  | _, ExVal.str s => "\x27" ++ s ++ "\x27"
  | _, ExVal.bytes bs => pyBytesRepr bs
  | 0, ExVal.tup _ => ""
  | 0, ExVal.dict _ => ""
  | fuel + 1, ExVal.tup l =>
    "(" ++ String.intercalate ", " (l.map (pyReprF fuel)) ++
      (if l.length = 1 then ",)" else ")")
  | fuel + 1, ExVal.dict l =>
    "\x7b" ++ String.intercalate ", "
      (l.map (fun p => pyKeyRepr p.1 ++ ": " ++ pyReprF fuel p.2)) ++ "\x7d"

/-- Fuel bound for `pyReprF`: far above the nesting depth of any value the
embedded program materialises (EXIF snapshots nest at most a GPS dict
inside the mapping, depth 3). -/
def pyFuel : Nat := 1000000

/-- Python `repr(value)`. -/
def pyRepr (v : ExVal) : String := pyReprF pyFuel v

/-- Python `str(value)`: like `repr` except that top-level strings print
without quotes. -/
def pyStr : ExVal → String
  | ExVal.int n => toString n
  | ExVal.str s => s
  | ExVal.bytes bs => pyBytesRepr bs
  | v => pyRepr v

/-- Python `str(v)` of each element of a tuple or list, for the comma join
in the extractor's general branch. -/
def pyStrList (l : List ExVal) : List String := l.map pyStr

/-- A decoded image as PIL presents it to this program: the descriptive
attributes, the primary EXIF mapping `img.getexif()` given as its items in
iteration order, a point at which lazy iteration of that mapping raises
(PIL parses tag values lazily, so a corrupt entry surfaces mid-iteration:
`exifRaisesAfter = some (k, msg)` with `k` below the item count means the
main tag loop raises `msg` after yielding `k` items), and the result of the
deprecated `img._getexif()` (`none` models both `None` and the
`AttributeError` / `TypeError` cases the source catches). -/
structure PyImage where
  format : String
  mode : String
  width : Nat
  height : Nat
  exif : List (Nat × ExVal)
  exifRaisesAfter : Option (Nat × String)
  legacy : Option (List (Nat × ExVal))

/-- Positional builder for `PyImage` (used in theorem statements). -/
def mkImage (fmt mode : String) (w hgt : Nat) (exif : List (Nat × ExVal))
    (ra : Option (Nat × String)) (legacy : Option (List (Nat × ExVal))) : PyImage :=
  { format := fmt, mode := mode, width := w, height := hgt,
    exif := exif, exifRaisesAfter := ra, legacy := legacy }

/-- `TAGS.get(tag_id, tag_id)`: resolve a raw id to a name, falling back to
the raw integer id. -/
def tagKeyOf (tid : Nat) : PyKey :=
  match TAGS tid with
  | some s => PyKey.str s
  | none => PyKey.int tid

/-- `GPSTAGS.get(gps_tag_id, gps_tag_id)` applied to a raw GPS sub-key. -/
def gpsKeyOf : PyKey → PyKey
  | .int n =>
    match GPSTAGS n with
    | some s => PyKey.str s
    | none => PyKey.int n
  | .str s => PyKey.str s

/-- The GPS sub-table resolution loop: `gps_data[GPSTAGS.get(id, id)] = v`
over the items of a raw GPS dict. -/
def buildGps (gd : List (PyKey × ExVal)) : List (PyKey × ExVal) :=
  gd.foldl (fun acc p => dinsert acc (gpsKeyOf p.1) p.2) []

/-- The general-branch value coercion of `get_metadata` (lines 120-130 of
the source): byte strings are decoded with `errors='ignore'` (which never
raises, so the `except` fallback there is unreachable), tuples and lists
are comma-joined, everything else passes through. -/
def coerceGeneral : ExVal → ExVal
  | .bytes bs => ExVal.str (String.mk (decodeUtf8Ignore bs))
  | .tup l => ExVal.str (String.intercalate ", " (pyStrList l))
  | v => v

/-- The body of the main tag loop of `get_metadata` (lines 92-130 of the
source) acting on the metadata dict built so far. -/
def procTag (gpsResolved : Bool) (m : List (PyKey × ExVal)) (p : Nat × ExVal) :
    List (PyKey × ExVal) :=
  if tagKeyOf p.1 = PyKey.str "GPSInfo" then
    if gpsResolved then m
    else
      match p.2 with
      | ExVal.dict gd => dinsert m (tagKeyOf p.1) (ExVal.dict (buildGps gd))
      | ExVal.int v =>
        dinsert m (tagKeyOf p.1) (ExVal.str ("IFD offset: " ++ toString v ++
          " (GPS data pointer, not actual GPS coordinates)"))
      | v => dinsert m (tagKeyOf p.1) (coerceGeneral v)
  else if tagKeyOf p.1 = PyKey.str "MakerNote" then
    match p.2 with
    | ExVal.bytes bs =>
      dinsert m (tagKeyOf p.1) (ExVal.str ("<Proprietary data: " ++
        toString bs.length ++ " bytes - May contain device serial numbers>"))
    | _ =>
      dinsert m (tagKeyOf p.1)
        (ExVal.str "<Proprietary manufacturer data - May contain device serial numbers>")
  else dinsert m (tagKeyOf p.1) (coerceGeneral p.2)

/-- The GPS pre-scan of `get_metadata` (lines 64-88 of the source): find the
first primary tag resolving to "GPSInfo"; if its value is a bare integer,
try the legacy `_getexif()` mapping, and when that is truthy, contains the
tag id, and holds a dict there, resolve its sub-tags.  Returns the resolved
GPS dict when every step succeeds, `none` otherwise. -/
def gpsLegacyResolve (img : PyImage) : Option (List (PyKey × ExVal)) :=
  match img.exif.find? (fun p => TAGS p.1 == some "GPSInfo") with
  | none => none
  | some gp =>
    match lookupNat img.exif gp.1 with
    | some (ExVal.int _) =>
      match img.legacy with
      | none => none
      | some old =>
        if old.isEmpty then none
        else
          match lookupNat old gp.1 with
          | some (ExVal.dict gd) => some (buildGps gd)
          | _ => none
    | _ => none

/-- Lines 132-135 of the source: append the three descriptive fields. -/
def finishDescriptive (img : PyImage) (m : List (PyKey × ExVal)) :
    List (PyKey × ExVal) :=
  dinsert (dinsert (dinsert m
    (PyKey.str "Image Format") (ExVal.str img.format))
    (PyKey.str "Image Mode") (ExVal.str img.mode))
    (PyKey.str "Image Size") (ExVal.tup [ExVal.int img.width, ExVal.int img.height])

/-- `get_metadata` (lines 51-139 of the source).  The argument is the
outcome of `Image.open`: `.error e` when opening raises `e`.  Any exception
is caught at the end and recorded by assigning into whatever dict has been
built so far (`metadata['Error'] = str(e)`). -/
def get_metadata (file : Except String PyImage) : List (PyKey × ExVal) :=
  match file with
  | .error e => [(PyKey.str "Error", ExVal.str e)]
  | .ok img =>
    if img.exif.isEmpty then finishDescriptive img []
    else
      let gpsRes := gpsLegacyResolve img
      let m0 : List (PyKey × ExVal) :=
        match gpsRes with
        | some gd => [(PyKey.str "GPSInfo", ExVal.dict gd)]
        | none => []
      match img.exifRaisesAfter with
      | some km =>
        if km.1 < img.exif.length then
          dinsert ((img.exif.take km.1).foldl (procTag gpsRes.isSome) m0)
            (PyKey.str "Error") (ExVal.str km.2)
        else finishDescriptive img (img.exif.foldl (procTag gpsRes.isSome) m0)
      | none => finishDescriptive img (img.exif.foldl (procTag gpsRes.isSome) m0)

/-- Comparison of dict keys as Python's `sorted` sees them: comparing an
integer key with a string key raises `TypeError`. -/
def keyCmp : PyKey → PyKey → Except String Ordering
  | .int a, .int b => .ok (compare a b)
  | .str a, .str b => .ok (compare a b)
  | _, _ => .error "TypeError: < not supported between instances of str and int"

/-- Insert one entry into an already sorted run, propagating `TypeError`. -/
def insertSorted (x : PyKey × ExVal) :
    List (PyKey × ExVal) → Except String (List (PyKey × ExVal))
  | [] => .ok [x]
  | y :: ys => do
    match ← keyCmp x.1 y.1 with
    | Ordering.lt => return x :: y :: ys
    | _ => return y :: (← insertSorted x ys)

/-- Python's `sorted(metadata.items())`: dict keys are unique, so only key
comparisons occur; mixing integer and string keys raises `TypeError` (any
correct sort must compare across the two types when both are present). -/
def pySorted : List (PyKey × ExVal) → Except String (List (PyKey × ExVal))
  | [] => .ok []
  | x :: xs => do insertSorted x (← pySorted xs)

/-- The non-GPS display line (lines 173-184 of the source): stringify,
truncate past 100 characters, and annotate serial numbers and sensitive
tags. -/
def renderPlain (key marker : String) (isSens : Bool) (v : ExVal) : List String :=
  let vs := pyStr v
  let vs := if vs.length > 100 then vs.take 100 ++ "..." else vs
  if strContains (strLower key) "serial" then
    ["    " ++ marker ++ key ++ ": " ++ vs ++ " ⚠️ Device Serial Number"]
  else if isSens then
    ["    " ++ marker ++ key ++ ": " ++ vs ++ " ⚠️ Sensitive"]
  else ["    " ++ key ++ ": " ++ vs]

/-- One iteration of the display loop of `display_metadata` (lines 158-184
of the source): returns the printed lines, or the exception raised
(`key.lower()` on an integer key raises `AttributeError`; the nested GPS
`sorted` can raise `TypeError`). -/
def renderEntry (k : PyKey) (v : ExVal) : Except String (List String) :=
  if k = PyKey.str "Image Format" ∨ k = PyKey.str "Image Mode" ∨
      k = PyKey.str "Image Size" then .ok []
  else
    match k with
    | .int _ => .error "AttributeError: int object has no attribute lower"
    | .str key =>
      let isSens := is_sensitive key
      let marker := if isSens then "🔒 " else "   "
      match v with
      | ExVal.dict gd =>
        if key = "GPSInfo" then do
          let gs ← pySorted gd
          return ("    " ++ marker ++ key ++ " (Location Data):") ::
            gs.map (fun q => "      " ++ pyKeyStr q.1 ++ ": " ++ pyStr q.2)
        else .ok (renderPlain key marker isSens (ExVal.dict gd))
      | w => .ok (renderPlain key marker isSens w)

/-- `display_metadata` (lines 141-184 of the source): the list of printed
lines, or the exception the loop raises.  An empty dict prints the single
"No metadata found" line; otherwise the label header is followed by the
entries in sorted order with the three descriptive fields skipped. -/
def display_metadata (metadata : List (PyKey × ExVal)) (label : String) :
    Except String (List String) :=
  if metadata.isEmpty then .ok ["  " ++ label ++ ": No metadata found"]
  else do
    let s ← pySorted metadata
    let body ← s.foldlM (fun acc p => do return acc ++ (← renderEntry p.1 p.2))
      ([] : List String)
    return ("  " ++ label ++ ":") :: body

/-- A file on disk: the outcome of decoding it with `Image.open`, its
modification time, and its access time. -/
structure FileRec where
  content : Except String PyImage
  mtime : Int
  atime : Int

/-- The mutable state the handler closes over: the watched filesystem and
the `processed_files` set. -/
structure SysState where
  fs : List (String × FileRec)
  processed_files : List String

/-- Filesystem read at a path. -/
def fsGet : List (String × FileRec) → String → Option FileRec
  | [], _ => none
  | e :: es, p => if e.1 = p then some e.2 else fsGet es p

/-- Filesystem write at a path (create or overwrite). -/
def fsSet : List (String × FileRec) → String → FileRec → List (String × FileRec)
  | [], p, fr => [(p, fr)]
  | e :: es, p, fr => if e.1 = p then (p, fr) :: es else e :: fsSet es p fr

/-- `Image.open(path)`: an error when the path is missing or undecodable. -/
def openFile (fs : List (String × FileRec)) (p : String) : Except String PyImage :=
  match fsGet fs p with
  | none => .error ("cannot open: " ++ p)
  | some fr => fr.content

/-- The format name passed to `img.save` for each supported extension
(lines 227-236 of the source). -/
def savedFormat (p : String) : String :=
  let s := strLower (pathSuffix p)
  if s = ".jpg" ∨ s = ".jpeg" then "JPEG"
  else if s = ".png" then "PNG"
  else if s = ".tiff" ∨ s = ".tif" then "TIFF"
  else if s = ".webp" then "WEBP"
  else "BMP"

/-- The image written by the save step (lines 212-236 of the source): the
palette / alpha normalisation makes the mode "RGB", the pixel dimensions
are unchanged, the container format follows the extension, and since no
metadata argument is passed to `img.save`, the written file carries an
empty EXIF mapping. -/
def strippedImage (path : String) (img : PyImage) : PyImage :=
  { format := savedFormat path
    mode := "RGB"
    width := img.width
    height := img.height
    exif := []
    exifRaisesAfter := none
    legacy := none }

/-- `clean_image_metadata` (lines 186-254 of the source).  `now` is the
wall-clock time at which the save step writes (the file's timestamps until
`os.utime` restores the captured value).  The whole body sits inside
`try/except`, so every raise surfaces as `(false, ·)`; the two guard
clauses return `False` before touching anything. -/
def clean_image_metadata (st : SysState) (path : String) (now : Int) :
    Bool × SysState :=
  if is_image_file path = false then (false, st)
  else if st.processed_files.contains path then (false, st)
  else
    match display_metadata (get_metadata (openFile st.fs path))
        "Metadata BEFORE cleaning" with
    | .error _ => (false, st)
    | .ok _ =>
      match fsGet st.fs path with
      | none => (false, st)
      | some fr =>
        match fr.content with
        | .error _ => (false, st)
        | .ok img =>
          match display_metadata (get_metadata (.ok (strippedImage path img)))
              "Metadata AFTER cleaning" with
          | .error _ =>
            (false,
             { fs := fsSet (fsSet st.fs path
                 { content := .ok (strippedImage path img), mtime := now, atime := now })
                 path
                 { content := .ok (strippedImage path img),
                   mtime := fr.mtime, atime := fr.mtime },
               processed_files := st.processed_files })
          | .ok _ =>
            (true,
             { fs := fsSet (fsSet st.fs path
                 { content := .ok (strippedImage path img), mtime := now, atime := now })
                 path
                 { content := .ok (strippedImage path img),
                   mtime := fr.mtime, atime := fr.mtime },
               processed_files := path :: st.processed_files })

/-- A small JPEG carrying one Make tag, for concrete runs. -/
def img0 : PyImage :=
  { format := "JPEG", mode := "RGB", width := 10, height := 10,
    exif := [(271, ExVal.str "Acme")], exifRaisesAfter := none, legacy := none }

/-- A watch state holding `img0` at one path, nothing processed yet. -/
def st0 : SysState :=
  { fs := [("/w/a.jpg", { content := .ok img0, mtime := 100, atime := 50 })],
    processed_files := [] }

/-- The state after cleaning `/w/a.jpg` in `st0` at time 999. -/
def st0cleaned : SysState := (clean_image_metadata st0 "/w/a.jpg" 999).2

/-- An image whose EXIF iteration raises after yielding its first tag
(a corrupt second entry in the lazily parsed tag table). -/
def c2img : PyImage :=
  { format := "JPEG", mode := "RGB", width := 8, height := 8,
    exif := [(271, ExVal.str "Acme"), (272, ExVal.str "X100")],
    exifRaisesAfter := some (1, "broken IFD"), legacy := none }

/-- An image whose GPSInfo tag is a bare IFD offset and whose legacy
`_getexif` path yields nothing. -/
def c5img : PyImage :=
  { format := "JPEG", mode := "RGB", width := 4, height := 4,
    exif := [(271, ExVal.str "Acme"), (34853, ExVal.int 726)],
    exifRaisesAfter := none, legacy := none }

/-- An image with one tag whose byte value is malformed UTF-8. -/
def c7img : PyImage :=
  { format := "JPEG", mode := "RGB", width := 8, height := 8,
    exif := [(315, ExVal.bytes [255])], exifRaisesAfter := none, legacy := none }

/-- An image with one tag whose raw id is unknown to `TAGS`, so the
snapshot gains an integer key next to the string descriptive keys. -/
def c10img : PyImage :=
  { format := "JPEG", mode := "RGB", width := 6, height := 6,
    exif := [(60000, ExVal.str "mystery")], exifRaisesAfter := none, legacy := none }

theorem dget_dinsert_self (m : List (PyKey × ExVal)) (k : PyKey) (v : ExVal) :
    dget (dinsert m k v) k = some v := by
  induction m with
  | nil => simp [dinsert, dget]
  | cons p ps ih =>
    by_cases h : p.1 = k
    · simp [dinsert, dget, h]
    · simp [dinsert, dget, h, ih]

theorem dget_dinsert_ne (m : List (PyKey × ExVal)) (k : PyKey) (v : ExVal)
    {k' : PyKey} (h : k' ≠ k) :
    dget (dinsert m k v) k' = dget m k' := by
  have hk : ¬(k = k') := fun hc => h hc.symm
  induction m with
  | nil => simp [dinsert, dget, hk]
  | cons p ps ih =>
    by_cases hp : p.1 = k
    · simp [dinsert, dget, hp, hk]
    · simp [dinsert, dget, hp, ih]

theorem dinsert_ne_nil (m : List (PyKey × ExVal)) (k : PyKey) (v : ExVal) :
    dinsert m k v ≠ [] := by
  cases m with
  | nil => simp [dinsert]
  | cons p ps =>
    by_cases h : p.1 = k <;> simp [dinsert, h]

theorem fsGet_fsSet_same (fs : List (String × FileRec)) (p : String) (fr : FileRec) :
    fsGet (fsSet fs p fr) p = some fr := by
  induction fs with
  | nil => simp [fsSet, fsGet]
  | cons e es ih =>
    by_cases h : e.1 = p
    · simp [fsSet, fsGet, h]
    · simp [fsSet, fsGet, h, ih]

theorem startsWithChars_iff (n : List Char) : ∀ h : List Char,
    startsWithChars n h = true ↔ ∃ r, h = n ++ r := by
  induction n with
  | nil => intro h; simp [startsWithChars]
  | cons c cs ih =>
    intro h
    cases h with
    | nil =>
      simp [startsWithChars]
    | cons d ds =>
      simp only [startsWithChars, Bool.and_eq_true, decide_eq_true_eq, ih ds,
        List.cons_append, List.cons.injEq]
      constructor
      · rintro ⟨hcd, r, hr⟩
        exact ⟨r, hcd.symm, hr⟩
      · rintro ⟨r, hdc, hr⟩
        exact ⟨hdc.symm, r, hr⟩

theorem subAux_iff (n : List Char) : ∀ hay : List Char,
    subAux n hay = true ↔ ∃ l r, hay = l ++ n ++ r := by
  intro hay
  induction hay with
  | nil =>
    simp only [subAux, startsWithChars_iff]
    constructor
    · rintro ⟨r, hr⟩
      exact ⟨[], r, by simpa using hr⟩
    · rintro ⟨l, r, hr⟩
      have h1 := List.append_eq_nil.mp hr.symm
      have h2 := List.append_eq_nil.mp h1.1
      exact ⟨[], by simp [h2.2]⟩
  | cons h t ih =>
    simp only [subAux, Bool.or_eq_true, startsWithChars_iff, ih]
    constructor
    · rintro (⟨r, hr⟩ | ⟨l, r, hr⟩)
      · exact ⟨[], r, by simpa using hr⟩
      · exact ⟨h :: l, r, by simp [hr]⟩
    · rintro ⟨l, r, hr⟩
      cases l with
      | nil => exact Or.inl ⟨r, by simpa using hr⟩
      | cons a l' =>
        rw [List.cons_append, List.cons_append, List.cons.injEq] at hr
        exact Or.inr ⟨l', r, hr.2⟩

theorem TAGS_eq_gps {q : Nat} (h : TAGS q = some "GPSInfo") : q = 34853 := by
  unfold TAGS at h
  split at h <;> simp_all

theorem tagKeyOf_eq_gps {q : Nat} (h : tagKeyOf q = PyKey.str "GPSInfo") :
    q = 34853 := by
  unfold tagKeyOf at h
  split at h
  next s hs =>
    have : s = "GPSInfo" := PyKey.str.inj h
    exact TAGS_eq_gps (this ▸ hs)
  next => cases h

theorem dget_procTag_ne (g : Bool) (m : List (PyKey × ExVal)) (p : Nat × ExVal)
    {k : PyKey} (hk : k ≠ tagKeyOf p.1) :
    dget (procTag g m p) k = dget m k := by
  unfold procTag
  split
  · split
    · rfl
    · split <;> exact dget_dinsert_ne _ _ _ hk
  · split
    · split <;> exact dget_dinsert_ne _ _ _ hk
    · exact dget_dinsert_ne _ _ _ hk

theorem dget_foldl_procTag (g : Bool) (l : List (Nat × ExVal))
    (m : List (PyKey × ExVal)) {k : PyKey} (hl : ∀ p ∈ l, k ≠ tagKeyOf p.1) :
    dget (l.foldl (procTag g) m) k = dget m k := by
  induction l generalizing m with
  | nil => rfl
  | cons p ps ih =>
    rw [List.foldl_cons, ih _ (fun q hq => hl q (List.mem_cons_of_mem _ hq)),
      dget_procTag_ne g m p (hl p (List.mem_cons_self _ _))]

theorem dget_finish_ne (img : PyImage) (m : List (PyKey × ExVal)) {k : PyKey}
    (h1 : k ≠ PyKey.str "Image Format") (h2 : k ≠ PyKey.str "Image Mode")
    (h3 : k ≠ PyKey.str "Image Size") :
    dget (finishDescriptive img m) k = dget m k := by
  unfold finishDescriptive
  rw [dget_dinsert_ne _ _ _ h3, dget_dinsert_ne _ _ _ h2, dget_dinsert_ne _ _ _ h1]

theorem dget_finish_size (img : PyImage) (m : List (PyKey × ExVal)) :
    dget (finishDescriptive img m) (PyKey.str "Image Size") =
      some (ExVal.tup [ExVal.int img.width, ExVal.int img.height]) :=
  dget_dinsert_self _ _ _

theorem dget_finish_mode (img : PyImage) (m : List (PyKey × ExVal)) :
    dget (finishDescriptive img m) (PyKey.str "Image Mode") =
      some (ExVal.str img.mode) := by
  unfold finishDescriptive
  rw [dget_dinsert_ne _ _ _ (by decide)]
  exact dget_dinsert_self _ _ _

theorem dget_finish_format (img : PyImage) (m : List (PyKey × ExVal)) :
    dget (finishDescriptive img m) (PyKey.str "Image Format") =
      some (ExVal.str img.format) := by
  unfold finishDescriptive
  rw [dget_dinsert_ne _ _ _ (by decide), dget_dinsert_ne _ _ _ (by decide)]
  exact dget_dinsert_self _ _ _

theorem finish_ne_nil (img : PyImage) (m : List (PyKey × ExVal)) :
    finishDescriptive img m ≠ [] :=
  dinsert_ne_nil _ _ _

theorem clean_success_spec {st st' : SysState} {path : String} {now : Int}
    (h : clean_image_metadata st path now = (true, st')) :
    is_image_file path = true ∧ st.processed_files.contains path = false ∧
    ∃ fr img, fsGet st.fs path = some fr ∧ fr.content = .ok img ∧
      st'.processed_files = path :: st.processed_files ∧
      fsGet st'.fs path = some { content := .ok (strippedImage path img),
                                 mtime := fr.mtime, atime := fr.mtime } := by
  unfold clean_image_metadata at h
  split at h
  next => simp at h
  next h1 =>
    split at h
    next => simp at h
    next h2 =>
      split at h
      next => simp at h
      next =>
        split at h
        next => simp at h
        next fr hfr =>
          split at h
          next => simp at h
          next img himg =>
            split at h
            next => simp at h
            next =>
              have hst := congrArg Prod.snd h
              simp only [] at hst
              refine ⟨by simpa using h1, by simpa using h2, fr, img, hfr, himg, ?_, ?_⟩
              · rw [← hst]
              · rw [← hst]
                exact fsGet_fsSet_same _ _ _

theorem get_metadata_stripped (path : String) (img : PyImage) :
    get_metadata (.ok (strippedImage path img)) =
      [(PyKey.str "Image Format", ExVal.str (savedFormat path)),
       (PyKey.str "Image Mode", ExVal.str "RGB"),
       (PyKey.str "Image Size", ExVal.tup [ExVal.int img.width, ExVal.int img.height])] :=
  rfl

/-- C1: for every supported image file that is successfully stripped, every
tag name present in the pre-strip metadata snapshot other than the three
descriptive fields "Image Format", "Image Mode" and "Image Size" is absent
from the post-strip metadata snapshot.  (The save step writes no metadata,
so the post-strip snapshot holds exactly the three descriptive fields.) -/
theorem C1_metadata_removal (st st' : SysState) (path : String) (now : Int)
    (h : clean_image_metadata st path now = (true, st')) (k : PyKey)
    (hpre : k ∈ (get_metadata (openFile st.fs path)).map Prod.fst)
    (h1 : k ≠ PyKey.str "Image Format") (h2 : k ≠ PyKey.str "Image Mode")
    (h3 : k ≠ PyKey.str "Image Size") :
    k ∉ (get_metadata (openFile st'.fs path)).map Prod.fst := by
  obtain ⟨-, -, fr, img, hfr, hc, hproc, hget⟩ := clean_success_spec h
  have hopen : openFile st'.fs path = .ok (strippedImage path img) := by
    unfold openFile
    rw [hget]
  rw [hopen, get_metadata_stripped]
  intro hmem
  simp only [List.map_cons, List.map_nil, List.mem_cons, List.not_mem_nil] at hmem
  rcases hmem with hk | hk | hk | hk
  · exact h1 hk
  · exact h2 hk
  · exact h3 hk
  · exact hk

/-- Witness for C1: a concrete successful strip of a JPEG carrying a Make
tag leaves no Make entry in the post-strip snapshot. -/
theorem C1_witness :
    (PyKey.str "Make") ∉ (get_metadata (openFile st0cleaned.fs "/w/a.jpg")).map Prod.fst :=
  C1_metadata_removal st0 st0cleaned "/w/a.jpg" 999 rfl (PyKey.str "Make")
    (by decide) (by decide) (by decide) (by decide)

/-- C2 counterexample: the claim says that whenever an exception is raised
during extraction the returned snapshot is exactly the single-entry mapping
with the "Error" key.  On an image whose lazy EXIF iteration raises after
its first tag, `get_metadata` returns the already-extracted Make entry
together with the Error entry - two entries, so the claim as stated is
false (the source assigns `metadata['Error'] = str(e)` into the partially
built dict instead of collapsing it). -/
theorem C2_counterexample :
    get_metadata (.ok c2img) =
      [(PyKey.str "Make", ExVal.str "Acme"),
       (PyKey.str "Error", ExVal.str "broken IFD")] ∧
    (get_metadata (.ok c2img)).length = 2 := ⟨rfl, rfl⟩

/-- C2 (amended): `get_metadata` never propagates an exception (it is a
total function of the modelled open outcome); when opening itself raises,
the snapshot is exactly the single Error entry, and when an exception is
raised mid-extraction the snapshot contains an Error entry holding the
message alongside whatever entries were already extracted. -/
theorem C2_extraction_error (file : Except String PyImage) :
    (∀ e, file = .error e →
      get_metadata file = [(PyKey.str "Error", ExVal.str e)]) ∧
    (∀ img k msg, file = .ok img → img.exifRaisesAfter = some (k, msg) →
      img.exif.isEmpty = false → k < img.exif.length →
      dget (get_metadata file) (PyKey.str "Error") = some (ExVal.str msg)) := by
  constructor
  · rintro e rfl
    rfl
  · rintro img k msg rfl hra he hk
    simp only [get_metadata, he, Bool.false_eq_true, if_false, hra, hk, if_true]
    exact dget_dinsert_self _ _ _

/-- Witness for C2's amended theorem at the concrete image `c2img`. -/
theorem C2_witness :
    dget (get_metadata (.ok c2img)) (PyKey.str "Error") =
      some (ExVal.str "broken IFD") :=
  (C2_extraction_error (.ok c2img)).2 c2img 1 "broken IFD" rfl rfl rfl (by decide)

/-- C3: `clean_image_metadata` returns false, raises nothing, and leaves
the state (filesystem included) unmodified when the extension is
unsupported or the path is already in `processed_files`; and after a
successful strip a second call on the same path is such a no-op. -/
theorem C3_noop_guard :
    (∀ (st : SysState) (path : String) (now : Int),
        is_image_file path = false ∨ st.processed_files.contains path = true →
        clean_image_metadata st path now = (false, st)) ∧
    (∀ (st : SysState) (path : String) (now now' : Int) (st' : SysState),
        clean_image_metadata st path now = (true, st') →
        clean_image_metadata st' path now' = (false, st')) := by
  constructor
  · intro st path now h
    unfold clean_image_metadata
    rcases h with h | h
    · simp [h]
    · by_cases h1 : is_image_file path = false
      · simp [h1]
      · rw [if_neg h1, if_pos h]
  · intro st path now now' st' h
    obtain ⟨-, -, fr, img, -, -, hproc, -⟩ := clean_success_spec h
    have hc : st'.processed_files.contains path = true := by
      rw [hproc]
      simp
    unfold clean_image_metadata
    by_cases h1 : is_image_file path = false
    · simp [h1]
    · rw [if_neg h1, if_pos hc]

/-- Witness for C3: an unsupported extension is a no-op, and re-running the
strip of `/w/a.jpg` right after its success is a no-op. -/
theorem C3_witness :
    clean_image_metadata st0 "/w/notes.txt" 0 = (false, st0) ∧
    clean_image_metadata st0cleaned "/w/a.jpg" 1000 = (false, st0cleaned) :=
  ⟨C3_noop_guard.1 st0 "/w/notes.txt" 0 (Or.inl (by decide)),
   C3_noop_guard.2 st0 "/w/a.jpg" 999 1000 st0cleaned rfl⟩

/-- C6: for every file that strip processes successfully, the output file's
modification time equals the modification time captured before re-encoding,
and both the access time and the modification time are set to that original
value (`os.utime(path, (original_mtime, original_mtime))`). -/
theorem C6_timestamp_preserved (st st' : SysState) (path : String) (now : Int)
    (h : clean_image_metadata st path now = (true, st')) :
    ∃ fr fr', fsGet st.fs path = some fr ∧ fsGet st'.fs path = some fr' ∧
      fr'.mtime = fr.mtime ∧ fr'.atime = fr.mtime := by
  obtain ⟨-, -, fr, img, hfr, -, -, hget⟩ := clean_success_spec h
  exact ⟨fr, _, hfr, hget, rfl, rfl⟩

/-- Witness for C6 at the concrete strip of `/w/a.jpg`: the restored
timestamps equal the original modification time. -/
theorem C6_witness :
    ∃ fr fr', fsGet st0.fs "/w/a.jpg" = some fr ∧
      fsGet st0cleaned.fs "/w/a.jpg" = some fr' ∧
      fr'.mtime = fr.mtime ∧ fr'.atime = fr.mtime :=
  C6_timestamp_preserved st0 st0cleaned "/w/a.jpg" 999 rfl

/-- C4: the classifier marks a tag name sensitive iff it case-insensitively
contains some term of the fixed sensitive set, and marks it a hardware
identifier iff it case-insensitively contains "serial"; the two checks are
separate definitions computed independently; "CameraSerialNumber" is both,
"Artist" is sensitive but not a hardware identifier. -/
theorem C4_classifier (key : String) :
    (is_sensitive key = true ↔
      ∃ t ∈ sensitive_fields, ∃ l r, (strLower key).data = l ++ (strLower t).data ++ r) ∧
    (is_hardware_identifier key = true ↔
      ∃ l r, (strLower key).data = l ++ "serial".data ++ r) ∧
    is_sensitive "CameraSerialNumber" = true ∧
    is_hardware_identifier "CameraSerialNumber" = true ∧
    is_sensitive "Artist" = true ∧
    is_hardware_identifier "Artist" = false := by
  refine ⟨?_, ?_, by decide, by decide, by decide, by decide⟩
  · unfold is_sensitive strContains
    rw [List.any_eq_true]
    constructor
    · rintro ⟨t, ht, hsub⟩
      exact ⟨t, ht, (subAux_iff _ _).mp hsub⟩
    · rintro ⟨t, ht, l, r, hlr⟩
      exact ⟨t, ht, (subAux_iff _ _).mpr ⟨l, r, hlr⟩⟩
  · unfold is_hardware_identifier strContains
    exact subAux_iff _ _

/-- Witness for C4 at the two concrete tag names of the claim. -/
theorem C4_witness :
    is_sensitive "CameraSerialNumber" = true ∧
    is_hardware_identifier "Artist" = false :=
  ⟨(C4_classifier "CameraSerialNumber").2.2.1,
   (C4_classifier "Artist").2.2.2.2.2⟩

/-- C5: when the primary GPSInfo tag holds a bare integer and the legacy
dereference path yields no mapping, the extractor stores under "GPSInfo"
the explanatory placeholder string identifying an IFD offset pointer -
never the raw integer, never coordinates, and the tag is not dropped. -/
theorem C5_gps_offset (fmt mode : String) (w hgt : Nat) (l₁ l₂ : List (Nat × ExVal))
    (v : Int) (legacy : Option (List (Nat × ExVal)))
    (h1 : ∀ p ∈ l₁, p.1 ≠ 34853) (h2 : ∀ p ∈ l₂, p.1 ≠ 34853)
    (hleg : gpsLegacyResolve
      (mkImage fmt mode w hgt (l₁ ++ (34853, ExVal.int v) :: l₂) none legacy) = none) :
    dget (get_metadata
        (.ok (mkImage fmt mode w hgt (l₁ ++ (34853, ExVal.int v) :: l₂) none legacy)))
      (PyKey.str "GPSInfo")
      = some (ExVal.str ("IFD offset: " ++ toString v ++
          " (GPS data pointer, not actual GPS coordinates)")) := by
  have hne : (l₁ ++ (34853, ExVal.int v) :: l₂).isEmpty = false := by
    cases l₁ <;> simp [List.isEmpty]
  simp only [mkImage] at hleg
  simp only [get_metadata, mkImage, hne, Bool.false_eq_true, if_false, hleg,
    Option.isSome_none]
  rw [dget_finish_ne _ _ (by decide) (by decide) (by decide)]
  rw [List.foldl_append, List.foldl_cons]
  rw [dget_foldl_procTag _ l₂ _
    (fun p hp heq => h2 p hp (tagKeyOf_eq_gps heq.symm))]
  rw [show ∀ M, procTag false M (34853, ExVal.int v) =
      dinsert M (PyKey.str "GPSInfo") (ExVal.str ("IFD offset: " ++ toString v ++
        " (GPS data pointer, not actual GPS coordinates)")) from fun M => rfl]
  exact dget_dinsert_self _ _ _

/-- Witness for C5 at the concrete image `c5img` (GPSInfo = 726, no legacy
data): the stored value is the placeholder string. -/
theorem C5_witness :
    dget (get_metadata (.ok c5img)) (PyKey.str "GPSInfo") =
      some (ExVal.str ("IFD offset: " ++ toString (726 : Int) ++
        " (GPS data pointer, not actual GPS coordinates)")) :=
  C5_gps_offset "JPEG" "RGB" 4 4 [(271, ExVal.str "Acme")] [] 726 none
    (by decide) (by decide) rfl

theorem procTag_general (g : Bool) (m : List (PyKey × ExVal)) (tid : Nat) (v : ExVal)
    (hg : tagKeyOf tid ≠ PyKey.str "GPSInfo")
    (hm : tagKeyOf tid ≠ PyKey.str "MakerNote") :
    procTag g m (tid, v) = dinsert m (tagKeyOf tid) (coerceGeneral v) := by
  cases v <;> simp [procTag, hg, hm, coerceGeneral]

/-- C7 counterexample: the claim says a malformed byte sequence falls back
to a placeholder string naming the byte count.  The source decodes with
`errors='ignore'`, which never raises, so the `except` fallback is dead
code: the malformed single byte 0xFF is stored as the empty decoded string,
not as the placeholder. -/
theorem C7_counterexample :
    get_metadata (.ok c7img) =
      [(PyKey.str "Artist", ExVal.str ""),
       (PyKey.str "Image Format", ExVal.str "JPEG"),
       (PyKey.str "Image Mode", ExVal.str "RGB"),
       (PyKey.str "Image Size", ExVal.tup [ExVal.int 8, ExVal.int 8])] ∧
    ("" : String) ≠ "<bytes: 1 bytes>" := ⟨rfl, by decide⟩

/-- C7 (amended): in the extractor's general tag branch every byte-sequence
value is stored as its UTF-8 decode with malformed portions ignored; the
coercion is total (never raises); the byte-count placeholder branch is
unreachable because the ignore-mode decode cannot raise. -/
theorem C7_bytes_coercion (fmt mode : String) (w hgt : Nat) (tid : Nat)
    (bs : List Nat) (name : String) (h1 : TAGS tid = some name)
    (h2 : name ≠ "GPSInfo") (h3 : name ≠ "MakerNote")
    (h4 : name ≠ "Image Format") (h5 : name ≠ "Image Mode")
    (h6 : name ≠ "Image Size") :
    dget (get_metadata
        (.ok (mkImage fmt mode w hgt [(tid, ExVal.bytes bs)] none none)))
      (PyKey.str name) = some (ExVal.str (String.mk (decodeUtf8Ignore bs))) := by
  have htag : tagKeyOf tid = PyKey.str name := by
    unfold tagKeyOf
    rw [h1]
  have hb : (TAGS tid == some "GPSInfo") = false := by
    rw [h1]
    exact beq_eq_false_iff_ne.mpr (fun hc => h2 (Option.some.inj hc))
  have hgps : gpsLegacyResolve
      (mkImage fmt mode w hgt [(tid, ExVal.bytes bs)] none none) = none := by
    unfold gpsLegacyResolve mkImage
    simp [List.find?, hb]
  simp only [mkImage] at hgps
  simp only [get_metadata, mkImage, List.isEmpty_cons, Bool.false_eq_true, if_false,
    hgps, Option.isSome_none]
  rw [dget_finish_ne _ _ (fun hc => h4 (PyKey.str.inj hc))
    (fun hc => h5 (PyKey.str.inj hc)) (fun hc => h6 (PyKey.str.inj hc))]
  rw [List.foldl_cons, List.foldl_nil,
    procTag_general false [] tid (ExVal.bytes bs)
      (fun hc => h2 (PyKey.str.inj (htag.symm.trans hc)))
      (fun hc => h3 (PyKey.str.inj (htag.symm.trans hc)))]
  rw [htag]
  exact dget_dinsert_self _ _ _

/-- Witness for C7's amended theorem: the malformed bytes [255, 65] are
stored as their ignore-mode decode (the single character "A"). -/
theorem C7_witness :
    dget (get_metadata
        (.ok (mkImage "JPEG" "RGB" 8 8 [(315, ExVal.bytes [255, 65])] none none)))
      (PyKey.str "Artist") =
      some (ExVal.str (String.mk (decodeUtf8Ignore [255, 65]))) ∧
    String.mk (decodeUtf8Ignore [255, 65]) = "A" :=
  ⟨C7_bytes_coercion "JPEG" "RGB" 8 8 315 [255, 65] "Artist" rfl (by decide)
    (by decide) (by decide) (by decide) (by decide), by decide⟩

/-- C8 counterexample: a snapshot holding exactly the three descriptive
fields is not the empty dict, so `display_metadata` prints the label header
with no entries - the rendered report does not show "No metadata found"
(that line is printed only for a fully empty mapping). -/
theorem C8_counterexample :
    display_metadata [(PyKey.str "Image Format", ExVal.str "PNG"),
        (PyKey.str "Image Mode", ExVal.str "RGBA"),
        (PyKey.str "Image Size", ExVal.tup [ExVal.int 4, ExVal.int 4])]
      "Metadata AFTER cleaning" = .ok ["  Metadata AFTER cleaning:"] ∧
    strContains "  Metadata AFTER cleaning:" "No metadata found" = false :=
  ⟨rfl, by decide⟩

/-- C8 (amended): "No metadata found" is rendered exactly when the snapshot
mapping is entirely empty; a snapshot holding just the three descriptive
fields renders as the label header alone, with every entry skipped. -/
theorem C8_empty_report (label fmt mode : String) (w hgt : Nat) :
    display_metadata [] label = .ok ["  " ++ label ++ ": No metadata found"] ∧
    display_metadata [(PyKey.str "Image Format", ExVal.str fmt),
        (PyKey.str "Image Mode", ExVal.str mode),
        (PyKey.str "Image Size", ExVal.tup [ExVal.int w, ExVal.int hgt])] label
      = .ok ["  " ++ label ++ ":"] :=
  ⟨rfl, rfl⟩

/-- Witness for C8's amended theorem at a concrete label. -/
theorem C8_witness :
    display_metadata [] "After" = .ok ["  " ++ "After" ++ ": No metadata found"] :=
  (C8_empty_report "After" "" "" 0 0).1

/-- C9: for every input, `get_metadata` returns a non-empty mapping holding
either the three descriptive fields or an "Error" entry, so the reporter's
empty-snapshot branch is never taken on an extractor-produced snapshot. -/
theorem C9_snapshot_nonempty (file : Except String PyImage) :
    ((dget (get_metadata file) (PyKey.str "Image Format")).isSome ∧
     (dget (get_metadata file) (PyKey.str "Image Mode")).isSome ∧
     (dget (get_metadata file) (PyKey.str "Image Size")).isSome ∨
     (dget (get_metadata file) (PyKey.str "Error")).isSome) ∧
    get_metadata file ≠ [] := by
  cases file with
  | error e =>
    exact ⟨Or.inr (by simp [get_metadata, dget]), by simp [get_metadata]⟩
  | ok img =>
    by_cases he : img.exif.isEmpty = true
    · constructor
      · left
        refine ⟨?_, ?_, ?_⟩ <;>
          simp only [get_metadata, he, eq_self_iff_true, if_true, dget_finish_format,
            dget_finish_mode, dget_finish_size, Option.isSome_some]
      · simp only [get_metadata, he, eq_self_iff_true, if_true]
        exact finish_ne_nil _ _
    · have he' : img.exif.isEmpty = false := by simpa using he
      cases hra : img.exifRaisesAfter with
      | none =>
        constructor
        · left
          refine ⟨?_, ?_, ?_⟩ <;>
            simp only [get_metadata, he', Bool.false_eq_true, if_false, hra,
              dget_finish_format, dget_finish_mode, dget_finish_size, Option.isSome_some]
        · simp only [get_metadata, he', Bool.false_eq_true, if_false, hra]
          exact finish_ne_nil _ _
      | some km =>
        by_cases hk : km.1 < img.exif.length
        · constructor
          · right
            simp only [get_metadata, he', Bool.false_eq_true, if_false, hra, hk, if_true]
            rw [dget_dinsert_self]
            rfl
          · simp only [get_metadata, he', Bool.false_eq_true, if_false, hra, hk, if_true]
            exact dinsert_ne_nil _ _ _
        · constructor
          · left
            refine ⟨?_, ?_, ?_⟩ <;>
              (simp only [get_metadata, he', Bool.false_eq_true, if_false, hra]
               rw [if_neg hk]
               simp only [dget_finish_format, dget_finish_mode, dget_finish_size,
                 Option.isSome_some])
          · simp only [get_metadata, he', Bool.false_eq_true, if_false, hra]
            rw [if_neg hk]
            exact finish_ne_nil _ _

/-- Witness for C9 at a concrete failed open. -/
theorem C9_witness :
    get_metadata (Except.error "boom" : Except String PyImage) ≠ [] :=
  (C9_snapshot_nonempty (.error "boom")).2

/-- C10: `display_metadata` is not total over extractor-producible
snapshots: on the snapshot extracted from `c10img` (whose unknown raw tag
id 60000 is stored under an integer key next to the string descriptive
keys) the `sorted(metadata.items())` call compares an integer key with a
string key and raises `TypeError` instead of rendering a report. -/
theorem C10_report_type_error :
    (PyKey.int 60000) ∈ (get_metadata (.ok c10img)).map Prod.fst ∧
    (PyKey.str "Image Format") ∈ (get_metadata (.ok c10img)).map Prod.fst ∧
    display_metadata (get_metadata (.ok c10img)) "Metadata BEFORE cleaning"
      = .error "TypeError: < not supported between instances of str and int" :=
  ⟨by decide, by decide, rfl⟩
